import Mathlib

/-!
# RPG-ENGINE front end: the map grid and the view-state store

A shallow embedding of `frontend/src/components/Map.js` (the function
`getWorldSize` and the grid built by the component `Map`) and of
`frontend/src/App.js` (the store held by `App`, and the asynchronous
functions `init`, `fetchWorld`, `fetchEvents` and `move`).

Numbers are integers (`Int`); the conversion of a number to text in a
template literal is the decimal rendering of that integer. JavaScript numbers
are IEEE-754 doubles: comparisons of integer-valued doubles are exact, and the
sum `n + 1` is exact as long as `n` is below `2 ^ 53` (`doubleExactBound`).
The statements about the numbers returned by `getWorldSize` carry that bound.
-/

namespace RpgEngine

/-! ## Data model -/

/-- One entry of the `locations` array answered by `GET /api/world`. -/
structure Location where
  x : Int
  y : Int
deriving DecidableEq

/-- The `item` object of an inventory entry. -/
structure Item where
  name : String
deriving DecidableEq

/-- One entry of `player.inventory_items`. -/
structure InventoryEntry where
  id : Nat
  item : Item
  quantity : Nat
deriving DecidableEq

/-- The player object answered by `POST /api/players`. -/
structure Player where
  id : Nat
  name : String
  x : Int
  y : Int
  inventory_items : List InventoryEntry
deriving DecidableEq

/-- One entry of the array answered by `GET /api/events`. -/
structure Event where
  id : Nat
  timestamp : String
  description : String
deriving DecidableEq

/-! ## Map.js -/

/-- The object `{ width, height }` returned by `getWorldSize`. -/
structure WorldSize where
  width : Int
  height : Int
deriving DecidableEq

/-- One iteration of the `for (const loc of world)` loop of `getWorldSize`,
on the pair `(maxX, maxY)`. -/
def sizeStep (acc : Int × Int) (loc : Location) : Int × Int :=
  let maxX := if loc.x > acc.1 then loc.x else acc.1
  let maxY := if loc.y > acc.2 then loc.y else acc.2
  (maxX, maxY)

/-- The number `2 ^ 53`: for an integer-valued double `n` with `0 ≤ n` below
this bound, the double sum `n + 1` of JavaScript is the integer `n + 1`; from
this bound on the sum is rounded and is no longer the successor. -/
def doubleExactBound : Int := 9007199254740992

/-- The function `getWorldSize` of Map.js: both maxima start at `0`, the loop
raises them, and the result is `{ width: maxX + 1, height: maxY + 1 }`. The
two sums are taken on integers, which is what the code computes as long as the
maxima are below `doubleExactBound`. -/
def getWorldSize (world : List Location) : WorldSize :=
  let m := world.foldl sizeStep (0, 0)
  { width := m.1 + 1, height := m.2 + 1 }

/-- The template literal with the two numbers `x` and `y` separated by a
comma, used both for the entries of the `discovered` set and for the key of a
cell. -/
def coordKey (x y : Int) : String :=
  toString x ++ "," ++ toString y

/-- A JavaScript `Set` of strings: its elements in insertion order, each once. -/
structure JsSet where
  elems : List String
deriving DecidableEq

/-- The method `Set.prototype.has`. -/
def JsSet.has (s : JsSet) (k : String) : Bool :=
  s.elems.contains k

/-- The method `Set.prototype.add`: a value already present is not added again. -/
def JsSet.add (s : JsSet) (k : String) : JsSet :=
  if s.has k then s else { elems := s.elems ++ [k] }

/-- The constructor `new Set(iterable)`: the values are added one by one. -/
def JsSet.ofList (ks : List String) : JsSet :=
  ks.foldl JsSet.add { elems := [] }

/-- One `div` of a row: its React key and the two flags that select its
`className`. -/
structure Cell where
  key : String
  isPlayer : Bool
  isDiscovered : Bool
deriving DecidableEq

/-- The `className` of a cell, as composed in Map.js. -/
def Cell.className (c : Cell) : String :=
  "w-4 h-4 border " ++ (if c.isDiscovered then "bg-green-200" else "bg-gray-400") ++ " " ++
    (if c.isPlayer then "border-2 border-red-500" else "")

/-- One row `div`: its React key `y` and its cells. -/
structure Row where
  key : Int
  cells : List Cell
deriving DecidableEq

/-- The cell pushed by the inner loop of `Map` at column `x` of row `y`. -/
def mkCell (discovered : JsSet) (player : Player) (x y : Int) : Cell :=
  let key := coordKey x y
  let isPlayer := decide (player.x = x) && decide (player.y = y)
  let isDiscovered := discovered.has key
  { key := key, isPlayer := isPlayer, isDiscovered := isDiscovered }

/-- The rows built by the component `Map` of Map.js: the outer loop runs `y`
from `0` while `y < height`, the inner loop runs `x` from `0` while
`x < width`. -/
def Map (world : List Location) (player : Player) : List Row :=
  let size := getWorldSize world
  let discovered := JsSet.ofList (world.map fun loc => coordKey loc.x loc.y)
  (List.range size.height.toNat).map fun (y : Nat) =>
    { key := (y : Int)
      cells := (List.range size.width.toNat).map fun (x : Nat) =>
        mkCell discovered player (x : Int) (y : Int) }

/-! ## Auxiliary definitions used in the statements and proofs -/

/-- The value of a decimal digit character. -/
def digitVal (c : Char) : Nat := c.toNat - 48

/-- The number written by a list of decimal digits, most significant first. -/
def decodeDigits (ds : List Char) : Nat :=
  ds.foldl (fun v c => 10 * v + digitVal c) 0

/-- The cell at column `x` of row `y` of a rendered grid, when there is one. -/
def cellAt (grid : List Row) (x y : Nat) : Option Cell :=
  match grid[y]? with
  | some r => r.cells[x]?
  | none => none

/-- The number of rendered cells that satisfy `q`, over all rows. -/
def countCells (q : Cell → Bool) (grid : List Row) : Nat :=
  (grid.map fun r => r.cells.countP q).sum

/-- The locations of a list whose two coordinates are both non-negative. -/
def nonNegative (world : List Location) : List Location :=
  world.filter fun loc => decide (0 ≤ loc.x) && decide (0 ≤ loc.y)

/-! ## App.js -/

/-- The four pieces of state held by `App` with `useState`. -/
structure Store where
  player : Option Player
  world : List Location
  events : List Event
  messages : List String
deriving DecidableEq

/-- The initial values given to `useState`: `null`, `[]`, `[]`, `[]`. -/
def Store.initial : Store :=
  { player := none, world := [], events := [], messages := [] }

/-- The outcome of one `await fetch(...)`: a response whose `ok` is true, with
the value of `res.json()`; a response whose `ok` is false; or a rejected
promise (transport failure). -/
inductive Reply (α : Type) where
  | ok (body : α)
  | notOk
  | rejected
deriving DecidableEq

/-- The body answered by `GET /api/world`. -/
structure WorldData where
  locations : List Location
deriving DecidableEq

/-- The body answered by `POST /api/players/:id/move`. -/
structure MoveData where
  x : Int
  y : Int
  messages : List String
deriving DecidableEq

/-- The requests sent by App.js. -/
inductive Request where
  | getPlayers
  | postPlayers (name : String)
  | getWorld
  | getEvents
  | postMove (playerId : Nat) (dx dy : Int)
deriving DecidableEq

/-- A request together with the store at the moment it was issued. -/
structure Issued where
  request : Request
  store : Store
deriving DecidableEq

/-- The store and the requests issued so far, oldest first. -/
structure Sys where
  store : Store
  issued : List Issued
deriving DecidableEq

/-- The state before `init` runs. -/
def Sys.initial : Sys :=
  { store := Store.initial, issued := [] }

/-- The result of running an `async` function to its end: the state reached,
and whether its promise rejected. -/
structure Run where
  sys : Sys
  threw : Bool
deriving DecidableEq

/-- The call `fetch(...)`: the request is recorded. -/
def fetch (req : Request) (σ : Sys) : Sys :=
  { σ with issued := σ.issued ++ [{ request := req, store := σ.store }] }

/-- The setter `setPlayer`. -/
def setPlayer (p : Option Player) (σ : Sys) : Sys :=
  { σ with store := { σ.store with player := p } }

/-- The setter `setWorld`. -/
def setWorld (w : List Location) (σ : Sys) : Sys :=
  { σ with store := { σ.store with world := w } }

/-- The setter `setEvents`. -/
def setEvents (e : List Event) (σ : Sys) : Sys :=
  { σ with store := { σ.store with events := e } }

/-- The setter `setMessages`, called with an updater function. -/
def setMessages (f : List String → List String) (σ : Sys) : Sys :=
  { σ with store := { σ.store with messages := f σ.store.messages } }

/-- The function `fetchWorld` of App.js. -/
def fetchWorld (res : Reply WorldData) (σ : Sys) : Run :=
  let σ := fetch Request.getWorld σ
  match res with
  | Reply.rejected => { sys := σ, threw := true }
  | Reply.notOk => { sys := σ, threw := false }
  | Reply.ok data => { sys := setWorld data.locations σ, threw := false }

/-- The function `fetchEvents` of App.js. -/
def fetchEvents (res : Reply (List Event)) (σ : Sys) : Run :=
  let σ := fetch Request.getEvents σ
  match res with
  | Reply.rejected => { sys := σ, threw := true }
  | Reply.notOk => { sys := σ, threw := false }
  | Reply.ok data => { sys := setEvents data σ, threw := false }

/-- The statements `await fetchWorld(); await fetchEvents();`: a rejection of
the first ends the sequence. -/
def refresh (worldRes : Reply WorldData) (eventsRes : Reply (List Event)) (σ : Sys) : Run :=
  let r := fetchWorld worldRes σ
  if r.threw then r else fetchEvents eventsRes r.sys

/-- The function `init` of App.js. The first request sits in a `try` whose
`catch` ignores a rejection, and its response is not read. -/
def init (probeRes : Reply Unit) (createRes : Reply Player) (worldRes : Reply WorldData)
    (eventsRes : Reply (List Event)) (σ : Sys) : Run :=
  let σ := fetch Request.getPlayers σ
  let σ := match probeRes with
    | Reply.rejected => σ
    | _ => σ
  let σ := fetch (Request.postPlayers "Hero") σ
  match createRes with
  | Reply.rejected => { sys := σ, threw := true }
  | Reply.notOk => refresh worldRes eventsRes (setPlayer none σ)
  | Reply.ok playerData => refresh worldRes eventsRes (setPlayer (some playerData) σ)

/-- The function `move` of App.js, called from the render of the current
store, so that the `player` of its closure is the player of the store. -/
def move (dx dy : Int) (moveRes : Reply MoveData) (worldRes : Reply WorldData)
    (eventsRes : Reply (List Event)) (σ : Sys) : Run :=
  match σ.store.player with
  | none => { sys := σ, threw := false }
  | some player =>
    let σ := fetch (Request.postMove player.id dx dy) σ
    match moveRes with
    | Reply.rejected => { sys := σ, threw := true }
    | Reply.notOk => { sys := σ, threw := false }
    | Reply.ok data =>
      let σ := setPlayer (some { player with x := data.x, y := data.y }) σ
      let σ := setMessages (fun msgs => msgs ++ data.messages) σ
      refresh worldRes eventsRes σ

/-- What `App` returns: the loading text, or the four panels with their props. -/
inductive View where
  | loading
  | game (map : List Row) (events : List Event) (messages : List String)
      (inventory : List InventoryEntry)
deriving DecidableEq

/-- The render of `App`. -/
def App (s : Store) : View :=
  match s.player with
  | none => View.loading
  | some player => View.game (Map s.world player) s.events s.messages player.inventory_items

/-- One call of a function of `App` that touches the store, with the replies
its requests get. -/
inductive Op where
  | move (dx dy : Int) (moveRes : Reply MoveData) (worldRes : Reply WorldData)
      (eventsRes : Reply (List Event))
  | fetchWorld (worldRes : Reply WorldData)
  | fetchEvents (eventsRes : Reply (List Event))
deriving DecidableEq

/-- Running one operation. -/
def Op.run : Op → Sys → Run
  | Op.move dx dy moveRes worldRes eventsRes, σ => RpgEngine.move dx dy moveRes worldRes eventsRes σ
  | Op.fetchWorld worldRes, σ => RpgEngine.fetchWorld worldRes σ
  | Op.fetchEvents eventsRes, σ => RpgEngine.fetchEvents eventsRes σ

/-- Running operations one after the other. -/
def runOps (ops : List Op) (σ : Sys) : Sys :=
  ops.foldl (fun σ op => (op.run σ).sys) σ

/-! ## Lemmas -/

/-! ### Decimal rendering and the key of a cell -/

theorem digitVal_digitChar (k : Nat) (hk : k < 10) : digitVal (Nat.digitChar k) = k := by
  interval_cases k <;> rfl

theorem digitChar_isDigit (k : Nat) (hk : k < 10) : (Nat.digitChar k).isDigit = true := by
  interval_cases k <;> rfl

theorem decodeDigits_append_singleton (ds : List Char) (c : Char) :
    decodeDigits (ds ++ [c]) = 10 * decodeDigits ds + digitVal c := by
  simp [decodeDigits, List.foldl_append]

theorem toDigitsCore_spec (fuel : Nat) : ∀ (n : Nat) (acc : List Char), n < fuel →
    ∃ ds, Nat.toDigitsCore 10 fuel n acc = ds ++ acc ∧ ds ≠ [] ∧
      (∀ c ∈ ds, c.isDigit = true) ∧ decodeDigits ds = n := by
  induction fuel with
  | zero => intro n acc h; omega
  | succ fuel ih =>
    intro n acc h
    have hd : n % 10 < 10 := Nat.mod_lt _ (by decide)
    by_cases h0 : n / 10 = 0
    · refine ⟨[Nat.digitChar (n % 10)], ?_, by simp, ?_, ?_⟩
      · simp [Nat.toDigitsCore, h0]
      · intro c hc
        rw [List.mem_singleton] at hc
        subst hc
        exact digitChar_isDigit _ hd
      · have : decodeDigits [Nat.digitChar (n % 10)] = digitVal (Nat.digitChar (n % 10)) := by
          simp [decodeDigits]
        rw [this, digitVal_digitChar _ hd]
        omega
    · have hlt : n / 10 < fuel := by omega
      obtain ⟨ds, hds, -, hdig, hval⟩ := ih (n / 10) (Nat.digitChar (n % 10) :: acc) hlt
      refine ⟨ds ++ [Nat.digitChar (n % 10)], ?_, by simp, ?_, ?_⟩
      · simp [Nat.toDigitsCore, h0, hds]
      · intro c hc
        rcases List.mem_append.1 hc with hc | hc
        · exact hdig c hc
        · rw [List.mem_singleton] at hc
          subst hc
          exact digitChar_isDigit _ hd
      · rw [decodeDigits_append_singleton, hval, digitVal_digitChar _ hd]
        omega

theorem toDigits_spec (n : Nat) :
    Nat.toDigits 10 n ≠ [] ∧ (∀ c ∈ Nat.toDigits 10 n, c.isDigit = true) ∧
      decodeDigits (Nat.toDigits 10 n) = n := by
  obtain ⟨ds, hds, hne, hdig, hval⟩ := toDigitsCore_spec (n + 1) n [] (Nat.lt_succ_self n)
  have : Nat.toDigits 10 n = ds := by simp [Nat.toDigits, hds]
  rw [this]
  exact ⟨hne, hdig, hval⟩

/-- The characters of the decimal rendering of an integer. -/
theorem toString_int_data (i : Int) :
    (toString i).data =
      match i with
      | Int.ofNat n => Nat.toDigits 10 n
      | Int.negSucc n => '-' :: Nat.toDigits 10 (n + 1) := by
  cases i <;> rfl

theorem toString_int_no_comma (i : Int) : ',' ∉ (toString i).data := by
  intro h
  rw [toString_int_data] at h
  cases i with
  | ofNat n =>
    have := (toDigits_spec n).2.1 _ h
    exact absurd this (by decide)
  | negSucc n =>
    rcases List.mem_cons.1 h with h | h
    · exact absurd h (by decide)
    · have := (toDigits_spec (n + 1)).2.1 _ h
      exact absurd this (by decide)

theorem toDigits_injective {m n : Nat} (h : Nat.toDigits 10 m = Nat.toDigits 10 n) : m = n := by
  rw [← (toDigits_spec m).2.2, ← (toDigits_spec n).2.2, h]

theorem toDigits_ne_minus_cons (m : Nat) (l : List Char) : Nat.toDigits 10 m ≠ '-' :: l := by
  intro h
  have := (toDigits_spec m).2.1 '-' (by rw [h]; exact List.mem_cons_self _ _)
  exact absurd this (by decide)

theorem toString_int_data_injective {i j : Int} (h : (toString i).data = (toString j).data) :
    i = j := by
  rw [toString_int_data, toString_int_data] at h
  cases i with
  | ofNat m =>
    cases j with
    | ofNat n => exact congrArg Int.ofNat (toDigits_injective h)
    | negSucc n => exact absurd h (toDigits_ne_minus_cons _ _)
  | negSucc m =>
    cases j with
    | ofNat n => exact absurd h.symm (toDigits_ne_minus_cons _ _)
    | negSucc n =>
      have := toDigits_injective (List.cons.inj h).2
      have : m = n := by omega
      rw [this]

theorem append_sep_inj {c : Char} : ∀ {a a' b b' : List Char}, c ∉ a → c ∉ a' →
    a ++ c :: b = a' ++ c :: b' → a = a' ∧ b = b'
  | [], [], _, _, _, _, h => ⟨rfl, (List.cons.inj h).2⟩
  | [], d :: a', _, _, _, h', h => by
    have := (List.cons.inj h).1
    exact absurd (this ▸ List.mem_cons_self _ _) h'
  | d :: a, [], _, _, h', _, h => by
    have := (List.cons.inj h).1
    exact absurd (this ▸ List.mem_cons_self _ _) h'
  | d :: a, d' :: a', b, b', h1, h2, h => by
    have hh := List.cons.inj h
    have := append_sep_inj (fun hc => h1 (List.mem_cons_of_mem _ hc))
      (fun hc => h2 (List.mem_cons_of_mem _ hc)) hh.2
    exact ⟨by rw [hh.1, this.1], this.2⟩

theorem coordKey_data (x y : Int) :
    (coordKey x y).data = (toString x).data ++ ',' :: (toString y).data := by
  simp [coordKey, String.data_append]

theorem coordKey_injective {x y x' y' : Int} (h : coordKey x y = coordKey x' y') :
    x = x' ∧ y = y' := by
  have hd := congrArg String.data h
  rw [coordKey_data, coordKey_data] at hd
  have := append_sep_inj (toString_int_no_comma x) (toString_int_no_comma x') hd
  exact ⟨toString_int_data_injective this.1, toString_int_data_injective this.2⟩

/-! ### The `discovered` set -/

theorem JsSet.mem_add (s : JsSet) (k k' : String) :
    k' ∈ (s.add k).elems ↔ k' ∈ s.elems ∨ k' = k := by
  unfold JsSet.add JsSet.has
  by_cases h : s.elems.contains k = true
  · rw [if_pos h]
    have hk : k ∈ s.elems := by simpa using h
    constructor
    · exact Or.inl
    · rintro (h' | rfl)
      · exact h'
      · exact hk
  · rw [if_neg h]
    simp

theorem JsSet.mem_foldl_add (ks : List String) : ∀ (s : JsSet) (k' : String),
    k' ∈ (ks.foldl JsSet.add s).elems ↔ k' ∈ s.elems ∨ k' ∈ ks := by
  induction ks with
  | nil => intro s k'; simp
  | cons k ks ih =>
    intro s k'
    rw [List.foldl_cons, ih, JsSet.mem_add, List.mem_cons, or_assoc]

theorem JsSet.has_ofList (ks : List String) (k : String) :
    (JsSet.ofList ks).has k = true ↔ k ∈ ks := by
  unfold JsSet.has JsSet.ofList
  have h := JsSet.mem_foldl_add ks { elems := [] } k
  simp only [List.not_mem_nil, false_or] at h
  rw [← h]
  simp

/-- The lookup of the key of `(x, y)` in the `discovered` set of `Map`. -/
theorem discovered_has (world : List Location) (x y : Int) :
    (JsSet.ofList (world.map fun loc => coordKey loc.x loc.y)).has (coordKey x y)
      = decide ((⟨x, y⟩ : Location) ∈ world) := by
  rw [Bool.eq_iff_iff, JsSet.has_ofList, decide_eq_true_iff, List.mem_map]
  constructor
  · rintro ⟨loc, hloc, hk⟩
    obtain ⟨hx, hy⟩ := coordKey_injective hk
    cases loc
    simp only at hx hy
    subst hx hy
    exact hloc
  · intro h
    exact ⟨_, h, rfl⟩

/-! ### `getWorldSize` -/

theorem foldl_sizeStep_spec (l : List Location) : ∀ acc : Int × Int,
    (acc.1 ≤ (l.foldl sizeStep acc).1 ∧ (∀ loc ∈ l, loc.x ≤ (l.foldl sizeStep acc).1) ∧
      ((l.foldl sizeStep acc).1 = acc.1 ∨ ∃ loc ∈ l, (l.foldl sizeStep acc).1 = loc.x)) ∧
    (acc.2 ≤ (l.foldl sizeStep acc).2 ∧ (∀ loc ∈ l, loc.y ≤ (l.foldl sizeStep acc).2) ∧
      ((l.foldl sizeStep acc).2 = acc.2 ∨ ∃ loc ∈ l, (l.foldl sizeStep acc).2 = loc.y)) := by
  induction l with
  | nil => intro acc; simp
  | cons a l ih =>
    intro acc
    obtain ⟨⟨h1, h2, h3⟩, ⟨k1, k2, k3⟩⟩ := ih (sizeStep acc a)
    rw [List.foldl_cons]
    have ex : (sizeStep acc a).1 = if a.x > acc.1 then a.x else acc.1 := rfl
    have ey : (sizeStep acc a).2 = if a.y > acc.2 then a.y else acc.2 := rfl
    refine ⟨⟨?_, ?_, ?_⟩, ⟨?_, ?_, ?_⟩⟩
    · rw [ex] at h1; split_ifs at h1 <;> omega
    · intro loc hloc
      rcases List.mem_cons.1 hloc with rfl | hloc
      · rw [ex] at h1; split_ifs at h1 <;> omega
      · exact h2 loc hloc
    · rcases h3 with h3 | ⟨loc, hloc, h3⟩
      · rw [ex] at h3
        split_ifs at h3
        · exact Or.inr ⟨a, List.mem_cons_self _ _, h3⟩
        · exact Or.inl h3
      · exact Or.inr ⟨loc, List.mem_cons_of_mem _ hloc, h3⟩
    · rw [ey] at k1; split_ifs at k1 <;> omega
    · intro loc hloc
      rcases List.mem_cons.1 hloc with rfl | hloc
      · rw [ey] at k1; split_ifs at k1 <;> omega
      · exact k2 loc hloc
    · rcases k3 with k3 | ⟨loc, hloc, k3⟩
      · rw [ey] at k3
        split_ifs at k3
        · exact Or.inr ⟨a, List.mem_cons_self _ _, k3⟩
        · exact Or.inl k3
      · exact Or.inr ⟨loc, List.mem_cons_of_mem _ hloc, k3⟩

theorem width_pos (world : List Location) : 1 ≤ (getWorldSize world).width := by
  have := (foldl_sizeStep_spec world (0, 0)).1.1
  simp only [getWorldSize]
  omega

theorem height_pos (world : List Location) : 1 ≤ (getWorldSize world).height := by
  have := (foldl_sizeStep_spec world (0, 0)).2.1
  simp only [getWorldSize]
  omega

theorem x_lt_width {world : List Location} {loc : Location} (h : loc ∈ world) :
    loc.x < (getWorldSize world).width := by
  have := (foldl_sizeStep_spec world (0, 0)).1.2.1 loc h
  simp only [getWorldSize]
  omega

theorem y_lt_height {world : List Location} {loc : Location} (h : loc ∈ world) :
    loc.y < (getWorldSize world).height := by
  have := (foldl_sizeStep_spec world (0, 0)).2.2.1 loc h
  simp only [getWorldSize]
  omega

theorem width_attained (world : List Location) :
    (getWorldSize world).width = 1 ∨ ∃ loc ∈ world, (getWorldSize world).width = loc.x + 1 := by
  rcases (foldl_sizeStep_spec world (0, 0)).1.2.2 with h | ⟨loc, hloc, h⟩
  · left; simp only [getWorldSize]; simp only at h; omega
  · right; exact ⟨loc, hloc, by simp only [getWorldSize]; omega⟩

theorem height_attained (world : List Location) :
    (getWorldSize world).height = 1 ∨ ∃ loc ∈ world, (getWorldSize world).height = loc.y + 1 := by
  rcases (foldl_sizeStep_spec world (0, 0)).2.2.2 with h | ⟨loc, hloc, h⟩
  · left; simp only [getWorldSize]; simp only at h; omega
  · right; exact ⟨loc, hloc, by simp only [getWorldSize]; omega⟩

/-- A world whose locations all occur in another one is not larger. -/
theorem getWorldSize_mono {w₁ w₂ : List Location} (h : ∀ loc ∈ w₁, loc ∈ w₂) :
    (getWorldSize w₁).width ≤ (getWorldSize w₂).width ∧
      (getWorldSize w₁).height ≤ (getWorldSize w₂).height := by
  constructor
  · rcases width_attained w₁ with h1 | ⟨loc, hloc, h1⟩
    · rw [h1]; exact width_pos w₂
    · rw [h1]; have := x_lt_width (h loc hloc); omega
  · rcases height_attained w₁ with h1 | ⟨loc, hloc, h1⟩
    · rw [h1]; exact height_pos w₂
    · rw [h1]; have := y_lt_height (h loc hloc); omega

/-- The size depends only on which locations occur in the list. -/
theorem getWorldSize_congr {w₁ w₂ : List Location} (h : ∀ loc, loc ∈ w₁ ↔ loc ∈ w₂) :
    getWorldSize w₁ = getWorldSize w₂ := by
  have h12 := getWorldSize_mono (fun loc hl => (h loc).1 hl)
  have h21 := getWorldSize_mono (fun loc hl => (h loc).2 hl)
  cases h1 : getWorldSize w₁
  cases h2 : getWorldSize w₂
  rw [h1, h2] at h12 h21
  simp only at h12 h21
  congr 1 <;> omega

/-! ### The grid of `Map` -/

/-- The grid of `Map`, with the set lookup replaced by list membership. -/
theorem Map_eq (world : List Location) (player : Player) :
    Map world player =
      (List.range (getWorldSize world).height.toNat).map fun (y : Nat) =>
        { key := (y : Int)
          cells := (List.range (getWorldSize world).width.toNat).map fun (x : Nat) =>
            { key := coordKey (x : Int) (y : Int)
              isPlayer := decide (player.x = (x : Int)) && decide (player.y = (y : Int))
              isDiscovered := decide ((⟨(x : Int), (y : Int)⟩ : Location) ∈ world) } } := by
  simp only [Map, mkCell, discovered_has]

theorem Map_congr {w₁ w₂ : List Location} (player : Player) (h : ∀ loc, loc ∈ w₁ ↔ loc ∈ w₂) :
    Map w₁ player = Map w₂ player := by
  rw [Map_eq, Map_eq, getWorldSize_congr h]
  simp only [h]

theorem Map_length (world : List Location) (player : Player) :
    ((Map world player).length : Int) = (getWorldSize world).height := by
  have := height_pos world
  simp only [Map, List.length_map, List.length_range]
  omega

theorem Map_row_length (world : List Location) (player : Player) :
    ∀ r ∈ Map world player, (r.cells.length : Int) = (getWorldSize world).width := by
  intro r hr
  have := width_pos world
  simp only [Map, List.mem_map] at hr
  obtain ⟨y, -, rfl⟩ := hr
  simp only [List.length_map, List.length_range]
  omega

theorem cellAt_Map (world : List Location) (player : Player) (x y : Nat) :
    cellAt (Map world player) x y =
      if (x : Int) < (getWorldSize world).width ∧ (y : Int) < (getWorldSize world).height then
        some { key := coordKey (x : Int) (y : Int)
               isPlayer := decide (player.x = (x : Int)) && decide (player.y = (y : Int))
               isDiscovered := decide ((⟨(x : Int), (y : Int)⟩ : Location) ∈ world) }
      else none := by
  have hw := width_pos world
  have hh := height_pos world
  rw [Map_eq]
  unfold cellAt
  by_cases hy : y < (getWorldSize world).height.toNat
  · by_cases hx : x < (getWorldSize world).width.toNat
    · rw [if_pos ⟨by omega, by omega⟩]
      simp [List.getElem?_map, List.getElem?_range, hx, hy]
    · rw [if_neg (by omega)]
      have hx' : (getWorldSize world).width.toNat ≤ x := by omega
      simp [List.getElem?_map, List.getElem?_range, hy, List.getElem?_eq_none, hx']
  · rw [if_neg (by omega)]
    have hy' : (getWorldSize world).height.toNat ≤ y := by omega
    simp [List.getElem?_map, List.getElem?_eq_none, hy']

theorem countP_row (f : Nat → Cell) (q : Cell → Bool) (a : Int) (t : Bool)
    (hq : ∀ x, q (f x) = (decide (a = (x : Int)) && t)) (W : Nat) :
    ((List.range W).map f).countP q = if (0 ≤ a ∧ a < (W : Int)) ∧ t = true then 1 else 0 := by
  induction W with
  | zero =>
    rw [if_neg (by push_cast; omega)]
    rfl
  | succ W ih =>
    rw [List.range_succ, List.map_append, List.countP_append, ih, List.map_singleton,
      List.countP_singleton, hq]
    cases t
    · simp
    · by_cases h1 : a = (W : Int)
      · simp [h1]
      · have e : ((0 ≤ a ∧ a < ((W + 1 : Nat) : Int)) ∧ true = true) ↔
            ((0 ≤ a ∧ a < (W : Int)) ∧ true = true) := by
          push_cast; constructor <;> rintro ⟨⟨h2, h3⟩, h4⟩ <;> exact ⟨⟨h2, by omega⟩, h4⟩
        have e' : (0 ≤ a ∧ a < (W : Int) + 1) ↔ (0 ≤ a ∧ a < (W : Int)) := by
          constructor <;> rintro ⟨h2, h3⟩ <;> exact ⟨h2, by omega⟩
        simp [h1, e']

theorem sum_rows (g : Nat → Nat) (b : Int) (c : Nat)
    (hg : ∀ y, g y = if b = (y : Int) then c else 0) (H : Nat) :
    ((List.range H).map g).sum = if 0 ≤ b ∧ b < (H : Int) then c else 0 := by
  induction H with
  | zero =>
    rw [if_neg (by push_cast; omega)]
    rfl
  | succ H ih =>
    rw [List.range_succ, List.map_append, List.sum_append, ih, List.map_singleton,
      List.sum_singleton, hg]
    by_cases h1 : b = (H : Int)
    · rw [if_pos h1, if_neg (by omega), if_pos (by push_cast; omega)]
      omega
    · rw [if_neg h1]
      by_cases h2 : 0 ≤ b ∧ b < (H : Int)
      · rw [if_pos h2, if_pos (by push_cast; omega)]
        omega
      · rw [if_neg h2, if_neg (by push_cast; omega)]

/-- Counting the cells of the grid of `Map` that satisfy a test which holds
exactly at the coordinates `(a, b)`. -/
theorem countCells_Map (world : List Location) (player : Player) (q : Cell → Bool) (a b : Int)
    (hq : ∀ x y : Nat, q { key := coordKey (x : Int) (y : Int)
                           isPlayer := decide (player.x = (x : Int)) && decide (player.y = (y : Int))
                           isDiscovered := decide ((⟨(x : Int), (y : Int)⟩ : Location) ∈ world) }
      = (decide (a = (x : Int)) && decide (b = (y : Int)))) :
    countCells q (Map world player) =
      if (0 ≤ a ∧ a < (getWorldSize world).width) ∧ (0 ≤ b ∧ b < (getWorldSize world).height)
      then 1 else 0 := by
  have hw := width_pos world
  have hh := height_pos world
  rw [Map_eq]
  unfold countCells
  rw [List.map_map]
  rw [sum_rows _ b (if 0 ≤ a ∧ a < (getWorldSize world).width then 1 else 0)]
  · have e1 : (((getWorldSize world).height.toNat : Nat) : Int) = (getWorldSize world).height := by
      omega
    rw [e1]
    by_cases h1 : 0 ≤ a ∧ a < (getWorldSize world).width <;>
      by_cases h2 : 0 ≤ b ∧ b < (getWorldSize world).height <;> simp [h1, h2]
  · intro y
    simp only [Function.comp]
    rw [countP_row _ q a (decide (b = (y : Int))) (fun x => hq x y)]
    have e2 : (((getWorldSize world).width.toNat : Nat) : Int) = (getWorldSize world).width := by
      omega
    rw [e2]
    by_cases h1 : 0 ≤ a ∧ a < (getWorldSize world).width <;>
      by_cases h2 : b = (y : Int) <;> simp [h1, h2]

/-! ## The map grid: claims C1, C2, C3, C6, C10 -/

/-- C1: for a non-empty list of locations with non-negative coordinates, all
below `2 ^ 53` (where the sums of `getWorldSize` are exact), `getWorldSize`
returns the greatest `x` of the list plus one as width and the greatest `y`
plus one as height; `Map` renders exactly `height` rows of exactly `width`
cells each; for the empty list the size is 1 by 1 and the single rendered cell
is not marked discovered. -/
theorem getWorldSize_max_and_grid_shape (world : List Location) (player : Player) :
    (world ≠ [] → (∀ loc ∈ world, 0 ≤ loc.x ∧ 0 ≤ loc.y) →
      (∀ loc ∈ world, loc.x < doubleExactBound ∧ loc.y < doubleExactBound) →
      (∃ loc ∈ world, (∀ l ∈ world, l.x ≤ loc.x) ∧ (getWorldSize world).width = loc.x + 1) ∧
      (∃ loc ∈ world, (∀ l ∈ world, l.y ≤ loc.y) ∧ (getWorldSize world).height = loc.y + 1)) ∧
    ((Map world player).length : Int) = (getWorldSize world).height ∧
    (∀ r ∈ Map world player, (r.cells.length : Int) = (getWorldSize world).width) ∧
    getWorldSize [] = { width := 1, height := 1 } ∧
    Map [] player =
      [{ key := 0
         cells := [{ key := "0,0"
                     isPlayer := decide (player.x = 0) && decide (player.y = 0)
                     isDiscovered := false }] }] := by
  refine ⟨?_, Map_length world player, Map_row_length world player, rfl, rfl⟩
  intro hne hnn _
  obtain ⟨l₀, hl₀⟩ := List.exists_mem_of_ne_nil world hne
  constructor
  · rcases width_attained world with h | ⟨loc, hloc, h⟩
    · refine ⟨l₀, hl₀, fun l hl => ?_, ?_⟩
      · have := x_lt_width hl
        have := (hnn l₀ hl₀).1
        omega
      · have := x_lt_width hl₀
        have := (hnn l₀ hl₀).1
        omega
    · refine ⟨loc, hloc, fun l hl => ?_, h⟩
      have := x_lt_width hl
      omega
  · rcases height_attained world with h | ⟨loc, hloc, h⟩
    · refine ⟨l₀, hl₀, fun l hl => ?_, ?_⟩
      · have := y_lt_height hl
        have := (hnn l₀ hl₀).2
        omega
      · have := y_lt_height hl₀
        have := (hnn l₀ hl₀).2
        omega
    · refine ⟨loc, hloc, fun l hl => ?_, h⟩
      have := y_lt_height hl
      omega

/-- Witness of C1 on the world `[(2,0), (1,3)]`, whose grid is 3 wide and 4 high. -/
theorem getWorldSize_max_and_grid_shape_witness :
    ((∃ loc ∈ [(⟨2, 0⟩ : Location), ⟨1, 3⟩], (∀ l ∈ [(⟨2, 0⟩ : Location), ⟨1, 3⟩], l.x ≤ loc.x) ∧
        (getWorldSize [⟨2, 0⟩, ⟨1, 3⟩]).width = loc.x + 1) ∧
      (∃ loc ∈ [(⟨2, 0⟩ : Location), ⟨1, 3⟩], (∀ l ∈ [(⟨2, 0⟩ : Location), ⟨1, 3⟩], l.y ≤ loc.y) ∧
        (getWorldSize [⟨2, 0⟩, ⟨1, 3⟩]).height = loc.y + 1)) ∧
    getWorldSize [⟨2, 0⟩, ⟨1, 3⟩] = { width := 3, height := 4 } :=
  ⟨(getWorldSize_max_and_grid_shape [⟨2, 0⟩, ⟨1, 3⟩] ⟨1, "Hero", 0, 0, []⟩).1
      (by decide) (by decide) (by decide), by decide⟩

/-- C2: for a list of locations with non-negative coordinates, every location
of the list has a cell in the grid of `Map`, at its own coordinates and marked
discovered; a rendered cell at `(x, y)` is marked discovered exactly when some
location of the list has the coordinates `(x, y)`; and two different pairs of
integers never get the same key. -/
theorem discovered_iff_listed (world : List Location) (player : Player)
    (hnn : ∀ loc ∈ world, 0 ≤ loc.x ∧ 0 ≤ loc.y) :
    (∀ loc ∈ world, ∃ c, cellAt (Map world player) loc.x.toNat loc.y.toNat = some c ∧
      c.key = coordKey loc.x loc.y ∧ c.isDiscovered = true) ∧
    (∀ (x y : Nat) (c : Cell), cellAt (Map world player) x y = some c →
      (c.isDiscovered = true ↔ ∃ loc ∈ world, loc.x = (x : Int) ∧ loc.y = (y : Int))) ∧
    (∀ x y x' y' : Int, coordKey x y = coordKey x' y' → x = x' ∧ y = y') := by
  refine ⟨?_, ?_, fun x y x' y' h => coordKey_injective h⟩
  · intro loc hloc
    obtain ⟨hx, hy⟩ := hnn loc hloc
    have hxw := x_lt_width hloc
    have hyh := y_lt_height hloc
    have ex : ((loc.x.toNat : Nat) : Int) = loc.x := Int.toNat_of_nonneg hx
    have ey : ((loc.y.toNat : Nat) : Int) = loc.y := Int.toNat_of_nonneg hy
    rw [cellAt_Map, ex, ey, if_pos ⟨hxw, hyh⟩]
    exact ⟨_, rfl, rfl, by simpa using hloc⟩
  · intro x y c hc
    rw [cellAt_Map] at hc
    split_ifs at hc
    cases hc
    simp only [decide_eq_true_iff]
    constructor
    · intro h
      exact ⟨_, h, rfl, rfl⟩
    · rintro ⟨⟨lx, ly⟩, hl, hx, hy⟩
      simp only at hx hy
      subst hx hy
      exact hl

/-- Witness of C2 on the world `[(1,0), (0,2)]`. -/
theorem discovered_iff_listed_witness :
    (∀ loc ∈ [(⟨1, 0⟩ : Location), ⟨0, 2⟩], ∃ c,
      cellAt (Map [⟨1, 0⟩, ⟨0, 2⟩] ⟨1, "Hero", 0, 0, []⟩) loc.x.toNat loc.y.toNat = some c ∧
      c.key = coordKey loc.x loc.y ∧ c.isDiscovered = true) ∧
    cellAt (Map [⟨1, 0⟩, ⟨0, 2⟩] ⟨1, "Hero", 0, 0, []⟩) 0 2 = some ⟨"0,2", false, true⟩ ∧
    cellAt (Map [⟨1, 0⟩, ⟨0, 2⟩] ⟨1, "Hero", 0, 0, []⟩) 1 1 = some ⟨"1,1", false, false⟩ :=
  ⟨(discovered_iff_listed [⟨1, 0⟩, ⟨0, 2⟩] ⟨1, "Hero", 0, 0, []⟩ (by decide)).1,
    by decide, by decide⟩

/-- C3, as stated, fails: with an empty world the grid is the single cell
`(0, 0)`, and a player at `(1, 0)` is marked on no cell. -/
theorem player_outside_grid_not_marked :
    countCells (fun c => c.isPlayer) (Map [] ⟨1, "Hero", 1, 0, []⟩) = 0 ∧
    ¬ (∀ (world : List Location) (player : Player),
        countCells (fun c => c.isPlayer) (Map world player) = 1) := by
  refine ⟨by decide, fun h => ?_⟩
  have := h [] ⟨1, "Hero", 1, 0, []⟩
  revert this
  decide

/-- C3, amended: the grid of `Map` marks one cell as the player's position when
the player's coordinates lie inside the grid and none otherwise; a rendered
cell at `(x, y)` carries the mark exactly when `(x, y)` is the player's
position; and when the player is inside the grid the cell at the player's
position carries the mark whether or not that position is in the list. -/
theorem player_marked_iff_inside (world : List Location) (player : Player) :
    countCells (fun c => c.isPlayer) (Map world player) =
      (if (0 ≤ player.x ∧ player.x < (getWorldSize world).width) ∧
          (0 ≤ player.y ∧ player.y < (getWorldSize world).height) then 1 else 0) ∧
    (∀ (x y : Nat) (c : Cell), cellAt (Map world player) x y = some c →
      (c.isPlayer = true ↔ player.x = (x : Int) ∧ player.y = (y : Int))) ∧
    ((0 ≤ player.x ∧ player.x < (getWorldSize world).width) →
      (0 ≤ player.y ∧ player.y < (getWorldSize world).height) →
      ∃ c, cellAt (Map world player) player.x.toNat player.y.toNat = some c ∧
        c.isPlayer = true ∧
        c.isDiscovered = decide ((⟨player.x, player.y⟩ : Location) ∈ world)) := by
  refine ⟨countCells_Map world player _ player.x player.y (fun x y => rfl), ?_, ?_⟩
  · intro x y c hc
    rw [cellAt_Map] at hc
    split_ifs at hc
    cases hc
    simp
  · intro hx hy
    have ex : ((player.x.toNat : Nat) : Int) = player.x := Int.toNat_of_nonneg hx.1
    have ey : ((player.y.toNat : Nat) : Int) = player.y := Int.toNat_of_nonneg hy.1
    rw [cellAt_Map, ex, ey, if_pos ⟨hx.2, hy.2⟩]
    exact ⟨_, rfl, by simp, rfl⟩

/-- Witness of amended C3: in the world `[(2,1)]` a player at the undiscovered
position `(1, 1)` is marked there. -/
theorem player_marked_iff_inside_witness :
    ∃ c, cellAt (Map [⟨2, 1⟩] ⟨1, "Hero", 1, 1, []⟩) 1 1 = some c ∧ c.isPlayer = true ∧
      c.isDiscovered = decide ((⟨1, 1⟩ : Location) ∈ [(⟨2, 1⟩ : Location)]) :=
  (player_marked_iff_inside [⟨2, 1⟩] ⟨1, "Hero", 1, 1, []⟩).2.2 (by decide) (by decide)

/-- C6: inserting anywhere a repeated entry for a location already in the list
leaves the grid of `Map` unchanged; the grid of a list equals the grid of the
list with duplicates removed; and every coordinate inside the bounds is the
key of exactly one rendered cell. -/
theorem duplicates_leave_grid_unchanged (world : List Location) (player : Player) :
    (∀ (pre post : List Location) (loc : Location), pre ++ post = world → loc ∈ world →
      getWorldSize (pre ++ loc :: post) = getWorldSize world ∧
      Map (pre ++ loc :: post) player = Map world player) ∧
    Map world.dedup player = Map world player ∧
    (∀ x y : Nat, (x : Int) < (getWorldSize world).width → (y : Int) < (getWorldSize world).height →
      countCells (fun c => decide (c.key = coordKey (x : Int) (y : Int))) (Map world player) = 1) := by
  refine ⟨?_, Map_congr player (fun loc => List.mem_dedup), ?_⟩
  · intro pre post loc hw hloc
    subst hw
    have hmem : ∀ l, l ∈ pre ++ loc :: post ↔ l ∈ pre ++ post := by
      intro l
      simp only [List.mem_append, List.mem_cons] at hloc ⊢
      constructor
      · rintro (h | rfl | h)
        · exact Or.inl h
        · exact hloc
        · exact Or.inr h
      · rintro (h | h)
        · exact Or.inl h
        · exact Or.inr (Or.inr h)
    exact ⟨getWorldSize_congr hmem, Map_congr player hmem⟩
  · intro x y hx hy
    rw [countCells_Map world player _ (x : Int) (y : Int), if_pos ⟨⟨by omega, hx⟩, ⟨by omega, hy⟩⟩]
    intro x' y'
    rw [Bool.eq_iff_iff]
    simp only [decide_eq_true_iff, Bool.and_eq_true]
    constructor
    · intro h
      have := coordKey_injective h
      exact ⟨this.1.symm, this.2.symm⟩
    · rintro ⟨h1, h2⟩
      rw [h1, h2]

/-- Witness of C6: a second entry for `(1, 0)` changes nothing, and the key
of `(1, 0)` is rendered once. -/
theorem duplicates_leave_grid_unchanged_witness :
    (getWorldSize [⟨1, 0⟩, ⟨1, 0⟩, ⟨0, 1⟩] = getWorldSize [⟨1, 0⟩, ⟨0, 1⟩] ∧
      Map [⟨1, 0⟩, ⟨1, 0⟩, ⟨0, 1⟩] ⟨1, "Hero", 0, 0, []⟩ =
        Map [⟨1, 0⟩, ⟨0, 1⟩] ⟨1, "Hero", 0, 0, []⟩) ∧
    countCells (fun c => decide (c.key = coordKey 1 0))
      (Map [⟨1, 0⟩, ⟨0, 1⟩] ⟨1, "Hero", 0, 0, []⟩) = 1 :=
  ⟨(duplicates_leave_grid_unchanged [⟨1, 0⟩, ⟨0, 1⟩] ⟨1, "Hero", 0, 0, []⟩).1
      [⟨1, 0⟩] [⟨0, 1⟩] ⟨1, 0⟩ rfl (by decide),
    (duplicates_leave_grid_unchanged [⟨1, 0⟩, ⟨0, 1⟩] ⟨1, "Hero", 0, 0, []⟩).2.2 1 0
      (by decide) (by decide)⟩

/-- C10, as stated, fails in its last part: the location `(-1, 5)` is dropped
by the restriction to non-negative coordinates but its `y` still sets the
height, so the grid of `Map` has six rows and the grid of the restricted
(empty) list has one. -/
theorem negative_location_still_sizes_grid :
    getWorldSize [⟨-1, 5⟩] = { width := 1, height := 6 } ∧
    getWorldSize (nonNegative [⟨-1, 5⟩]) = { width := 1, height := 1 } ∧
    Map [⟨-1, 5⟩] ⟨1, "Hero", 0, 0, []⟩ ≠ Map (nonNegative [⟨-1, 5⟩]) ⟨1, "Hero", 0, 0, []⟩ := by
  decide

/-- C10, amended: for locations with coordinates of any sign, the width and
the height are both at least 1, and as long as the greatest `x` (the greatest
`y`) is below `2 ^ 53`, where the sum is exact, the width is
`max 0 (greatest x) + 1` (the height `max 0 (greatest y) + 1`); the key of a location with a negative coordinate is the key of no rendered
cell, and a rendered cell is marked discovered exactly when its coordinates are
a location of the list restricted to non-negative coordinates; the grid of the
restricted list is not larger than the grid of `Map`, agrees with it cell by
cell inside its own bounds, and equals it when the two sizes are equal. -/
theorem any_sign_size_and_marks (world : List Location) (player : Player) :
    (1 ≤ (getWorldSize world).width ∧ 1 ≤ (getWorldSize world).height) ∧
    (world = [] → getWorldSize world = { width := 1, height := 1 }) ∧
    (∀ loc ∈ world, (∀ l ∈ world, l.x ≤ loc.x) → loc.x < doubleExactBound →
      (getWorldSize world).width = max 0 loc.x + 1) ∧
    (∀ loc ∈ world, (∀ l ∈ world, l.y ≤ loc.y) → loc.y < doubleExactBound →
      (getWorldSize world).height = max 0 loc.y + 1) ∧
    (∀ loc ∈ world, loc.x < 0 ∨ loc.y < 0 →
      ∀ (x y : Nat) (c : Cell), cellAt (Map world player) x y = some c →
        c.key ≠ coordKey loc.x loc.y) ∧
    (∀ (x y : Nat) (c : Cell), cellAt (Map world player) x y = some c →
      (c.isDiscovered = true ↔ (⟨(x : Int), (y : Int)⟩ : Location) ∈ nonNegative world)) ∧
    ((getWorldSize (nonNegative world)).width ≤ (getWorldSize world).width ∧
      (getWorldSize (nonNegative world)).height ≤ (getWorldSize world).height) ∧
    (∀ x y : Nat, (x : Int) < (getWorldSize (nonNegative world)).width →
      (y : Int) < (getWorldSize (nonNegative world)).height →
      cellAt (Map (nonNegative world) player) x y = cellAt (Map world player) x y) ∧
    (getWorldSize (nonNegative world) = getWorldSize world →
      Map (nonNegative world) player = Map world player) := by
  have hsub : ∀ loc ∈ nonNegative world, loc ∈ world := fun loc h => (List.mem_filter.1 h).1
  have hmem : ∀ x y : Nat, ((⟨(x : Int), (y : Int)⟩ : Location) ∈ nonNegative world) ↔
      ((⟨(x : Int), (y : Int)⟩ : Location) ∈ world) := by
    intro x y
    simp only [nonNegative, List.mem_filter, Bool.and_eq_true, decide_eq_true_iff]
    constructor
    · exact fun h => h.1
    · exact fun h => ⟨h, by simp, by simp⟩
  have hmono := getWorldSize_mono hsub
  refine ⟨⟨width_pos world, height_pos world⟩, ?_, ?_, ?_, ?_, ?_, hmono, ?_, ?_⟩
  · intro h
    subst h
    rfl
  · intro loc hloc hmax _
    have h1 := x_lt_width hloc
    rcases width_attained world with h | ⟨l, hl, h⟩
    · rw [h, max_eq_left (by omega)]
      rfl
    · have := hmax l hl
      have hp := width_pos world
      rw [h] at h1 hp ⊢
      have e : l.x = loc.x := by omega
      rw [e] at hp ⊢
      rw [max_eq_right (by omega)]
  · intro loc hloc hmax _
    have h1 := y_lt_height hloc
    rcases height_attained world with h | ⟨l, hl, h⟩
    · rw [h, max_eq_left (by omega)]
      rfl
    · have := hmax l hl
      have hp := height_pos world
      rw [h] at h1 hp ⊢
      have e : l.y = loc.y := by omega
      rw [e] at hp ⊢
      rw [max_eq_right (by omega)]
  · intro loc _ hneg x y c hc hkey
    rw [cellAt_Map] at hc
    split_ifs at hc
    cases hc
    have := coordKey_injective hkey
    simp only at this
    omega
  · intro x y c hc
    rw [cellAt_Map] at hc
    split_ifs at hc
    cases hc
    simp only [decide_eq_true_iff]
    exact (hmem x y).symm
  · intro x y hx hy
    rw [cellAt_Map, cellAt_Map, if_pos ⟨hx, hy⟩, if_pos ⟨by omega, by omega⟩]
    simp only [hmem]
  · intro hsize
    rw [Map_eq, Map_eq, hsize]
    simp only [hmem]

/-- Witness of amended C10 on the world `[(-1, 5), (2, 0)]`: the width comes
from `(2, 0)`, the height from `(-1, 5)`, and the grid of the restricted list
`[(2, 0)]` agrees with the first row of the grid of `Map`. -/
theorem any_sign_size_and_marks_witness :
    (getWorldSize [⟨-1, 5⟩, ⟨2, 0⟩]).width = max 0 2 + 1 ∧
    (getWorldSize [⟨-1, 5⟩, ⟨2, 0⟩]).height = max 0 5 + 1 ∧
    cellAt (Map (nonNegative [⟨-1, 5⟩, ⟨2, 0⟩]) ⟨1, "Hero", 0, 0, []⟩) 2 0 =
      cellAt (Map [⟨-1, 5⟩, ⟨2, 0⟩] ⟨1, "Hero", 0, 0, []⟩) 2 0 :=
  ⟨(any_sign_size_and_marks [⟨-1, 5⟩, ⟨2, 0⟩] ⟨1, "Hero", 0, 0, []⟩).2.2.1 ⟨2, 0⟩
      (by decide) (by decide) (by decide),
    (any_sign_size_and_marks [⟨-1, 5⟩, ⟨2, 0⟩] ⟨1, "Hero", 0, 0, []⟩).2.2.2.1 ⟨-1, 5⟩
      (by decide) (by decide) (by decide),
    (any_sign_size_and_marks [⟨-1, 5⟩, ⟨2, 0⟩] ⟨1, "Hero", 0, 0, []⟩).2.2.2.2.2.2.2.1 2 0
      (by decide) (by decide)⟩

/-! ## The store: claims C4, C5, C7, C8, C9 -/

theorem refresh_store (worldRes : Reply WorldData) (eventsRes : Reply (List Event)) (σ : Sys) :
    (refresh worldRes eventsRes σ).sys.store.player = σ.store.player ∧
    (refresh worldRes eventsRes σ).sys.store.messages = σ.store.messages := by
  cases worldRes <;> cases eventsRes <;> exact ⟨rfl, rfl⟩

/-- C4: with a non-null player and a successful move response, after `move`
the player's position is the response's `(x, y)` whatever the delta and the
previous position, the player's `id`, `name` and `inventory_items` are
unchanged, and the message log is the previous log followed by the response's
messages in order; with the response `(3, 4, ["You found a sword."])` the
position is `(3, 4)` and the last element of the log is that message. -/
theorem move_success_applies_response (σ : Sys) (player : Player) (dx dy : Int) (data : MoveData)
    (worldRes : Reply WorldData) (eventsRes : Reply (List Event))
    (hp : σ.store.player = some player) :
    (move dx dy (Reply.ok data) worldRes eventsRes σ).sys.store.player =
      some { id := player.id, name := player.name, x := data.x, y := data.y,
             inventory_items := player.inventory_items } ∧
    (move dx dy (Reply.ok data) worldRes eventsRes σ).sys.store.messages =
      σ.store.messages ++ data.messages ∧
    (data = { x := 3, y := 4, messages := ["You found a sword."] } →
      (∃ p, (move dx dy (Reply.ok data) worldRes eventsRes σ).sys.store.player = some p ∧
        p.x = 3 ∧ p.y = 4) ∧
      (move dx dy (Reply.ok data) worldRes eventsRes σ).sys.store.messages.getLast? =
        some "You found a sword.") := by
  have hplayer : (move dx dy (Reply.ok data) worldRes eventsRes σ).sys.store.player =
      some { id := player.id, name := player.name, x := data.x, y := data.y,
             inventory_items := player.inventory_items } := by
    simp only [move, hp]
    rw [(refresh_store _ _ _).1]
    rfl
  have hmsgs : (move dx dy (Reply.ok data) worldRes eventsRes σ).sys.store.messages =
      σ.store.messages ++ data.messages := by
    simp only [move, hp]
    rw [(refresh_store _ _ _).2]
    rfl
  refine ⟨hplayer, hmsgs, ?_⟩
  intro hdata
  subst hdata
  refine ⟨⟨_, hplayer, rfl, rfl⟩, ?_⟩
  rw [hmsgs]
  simp

/-- Witness of C4: a move to the right from `(0, 0)` answered with
`(3, 4, ["You found a sword."])`. -/
theorem move_success_applies_response_witness :
    (move 1 0 (Reply.ok ⟨3, 4, ["You found a sword."]⟩) (Reply.ok ⟨[⟨3, 4⟩]⟩) (Reply.ok [])
        ⟨⟨some ⟨7, "Hero", 0, 0, [⟨1, ⟨"Key"⟩, 2⟩]⟩, [], [], ["Welcome."]⟩, []⟩).sys.store.player =
      some ⟨7, "Hero", 3, 4, [⟨1, ⟨"Key"⟩, 2⟩]⟩ ∧
    (move 1 0 (Reply.ok ⟨3, 4, ["You found a sword."]⟩) (Reply.ok ⟨[⟨3, 4⟩]⟩) (Reply.ok [])
        ⟨⟨some ⟨7, "Hero", 0, 0, [⟨1, ⟨"Key"⟩, 2⟩]⟩, [], [], ["Welcome."]⟩, []⟩).sys.store.messages =
      ["Welcome.", "You found a sword."] :=
  ⟨(move_success_applies_response
      ⟨⟨some ⟨7, "Hero", 0, 0, [⟨1, ⟨"Key"⟩, 2⟩]⟩, [], [], ["Welcome."]⟩, []⟩
      ⟨7, "Hero", 0, 0, [⟨1, ⟨"Key"⟩, 2⟩]⟩ 1 0 ⟨3, 4, ["You found a sword."]⟩
      (Reply.ok ⟨[⟨3, 4⟩]⟩) (Reply.ok []) rfl).1,
    (move_success_applies_response
      ⟨⟨some ⟨7, "Hero", 0, 0, [⟨1, ⟨"Key"⟩, 2⟩]⟩, [], [], ["Welcome."]⟩, []⟩
      ⟨7, "Hero", 0, 0, [⟨1, ⟨"Key"⟩, 2⟩]⟩ 1 0 ⟨3, 4, ["You found a sword."]⟩
      (Reply.ok ⟨[⟨3, 4⟩]⟩) (Reply.ok []) rfl).2.1⟩

/-- C5: with a non-null player, when the move request gets a non-success
response, `move` leaves the whole store (player, message log, world, events)
as it was, and the only request it issues is the move request: no world or
events fetch follows. -/
theorem move_failure_changes_nothing (σ : Sys) (player : Player) (dx dy : Int)
    (worldRes : Reply WorldData) (eventsRes : Reply (List Event))
    (hp : σ.store.player = some player) :
    (move dx dy Reply.notOk worldRes eventsRes σ).sys.store = σ.store ∧
    (move dx dy Reply.notOk worldRes eventsRes σ).sys.issued =
      σ.issued ++ [{ request := Request.postMove player.id dx dy, store := σ.store }] ∧
    (move dx dy Reply.notOk worldRes eventsRes σ).threw = false := by
  simp [move, hp, fetch]

/-- Witness of C5: a refused move to the left from `(2, 2)`. -/
theorem move_failure_changes_nothing_witness :
    (move (-1) 0 Reply.notOk (Reply.ok ⟨[⟨9, 9⟩]⟩) (Reply.ok [⟨1, "t", "d"⟩])
        ⟨⟨some ⟨7, "Hero", 2, 2, []⟩, [⟨2, 2⟩], [], ["Welcome."]⟩, []⟩).sys.store =
      ⟨some ⟨7, "Hero", 2, 2, []⟩, [⟨2, 2⟩], [], ["Welcome."]⟩ :=
  (move_failure_changes_nothing ⟨⟨some ⟨7, "Hero", 2, 2, []⟩, [⟨2, 2⟩], [], ["Welcome."]⟩, []⟩
    ⟨7, "Hero", 2, 2, []⟩ (-1) 0 (Reply.ok ⟨[⟨9, 9⟩]⟩) (Reply.ok [⟨1, "t", "d"⟩]) rfl).1

/-- C7, as stated, fails: when the player-creation request gets a non-success
response, `init` still issues the world fetch and the events fetch, and at
those moments the player in the store is null. -/
theorem fetches_issued_with_null_player :
    (init Reply.notOk Reply.notOk (Reply.ok ⟨[⟨0, 0⟩]⟩) (Reply.ok []) Sys.initial).sys.issued =
      [{ request := Request.getPlayers, store := Store.initial },
       { request := Request.postPlayers "Hero", store := Store.initial },
       { request := Request.getWorld, store := Store.initial },
       { request := Request.getEvents,
         store := { player := none, world := [⟨0, 0⟩], events := [], messages := [] } }] ∧
    ¬ (∀ e ∈ (init Reply.notOk Reply.notOk (Reply.ok ⟨[⟨0, 0⟩]⟩) (Reply.ok [])
          Sys.initial).sys.issued,
        (e.request = Request.getWorld ∨ e.request = Request.getEvents) →
          e.store.player ≠ none) := by
  decide

/-- C7, amended: in every run of `init` the world fetch and the events fetch
are issued only after the player-creation request, whatever the first request
was answered. When the creation request is rejected no fetch is issued.
Otherwise the world fetch is issued, followed by the events fetch unless the
world request is rejected. When creation succeeded, `setPlayer` has been called
with the created player at the moment each of these fetches is issued; when it
got a non-success response the same fetches are issued with a null player. -/
theorem fetches_follow_player_creation (probeRes : Reply Unit) (createRes : Reply Player)
    (worldRes : Reply WorldData) (eventsRes : Reply (List Event)) (σ : Sys) :
    ∃ rest : List Issued,
      (init probeRes createRes worldRes eventsRes σ).sys.issued =
        σ.issued ++ { request := Request.getPlayers, store := σ.store } ::
          { request := Request.postPlayers "Hero", store := σ.store } :: rest ∧
      (createRes = Reply.rejected → rest = []) ∧
      (createRes ≠ Reply.rejected → worldRes = Reply.rejected →
        rest.map (fun e => e.request) = [Request.getWorld]) ∧
      (createRes ≠ Reply.rejected → worldRes ≠ Reply.rejected →
        rest.map (fun e => e.request) = [Request.getWorld, Request.getEvents]) ∧
      (∀ p, createRes = Reply.ok p → ∀ e ∈ rest, e.store.player = some p) ∧
      (createRes = Reply.notOk → ∀ e ∈ rest, e.store.player = none) := by
  cases probeRes <;> cases createRes <;> cases worldRes <;> cases eventsRes <;>
    simp [init, refresh, fetchWorld, fetchEvents, fetch, setPlayer, setWorld, setEvents]

/-- Witness of amended C7: a bootstrap in which the creation and both fetches
succeed, and one in which the creation is refused and the world request is
rejected, so that no events fetch follows. -/
theorem fetches_follow_player_creation_witness :
    (∃ rest : List Issued,
      (init Reply.notOk (Reply.ok ⟨1, "Hero", 0, 0, []⟩) (Reply.ok ⟨[⟨0, 0⟩]⟩) (Reply.ok [])
          Sys.initial).sys.issued =
        Sys.initial.issued ++ { request := Request.getPlayers, store := Sys.initial.store } ::
          { request := Request.postPlayers "Hero", store := Sys.initial.store } :: rest ∧
      rest.map (fun e => e.request) = [Request.getWorld, Request.getEvents] ∧
      ∀ e ∈ rest, e.store.player = some ⟨1, "Hero", 0, 0, []⟩) ∧
    (∃ rest : List Issued,
      (init Reply.notOk Reply.notOk Reply.rejected (Reply.ok []) Sys.initial).sys.issued =
        Sys.initial.issued ++ { request := Request.getPlayers, store := Sys.initial.store } ::
          { request := Request.postPlayers "Hero", store := Sys.initial.store } :: rest ∧
      rest.map (fun e => e.request) = [Request.getWorld] ∧
      ∀ e ∈ rest, e.store.player = none) := by
  constructor
  · obtain ⟨rest, h1, _, _, h4, h5, _⟩ := fetches_follow_player_creation Reply.notOk
      (Reply.ok ⟨1, "Hero", 0, 0, []⟩) (Reply.ok ⟨[⟨0, 0⟩]⟩) (Reply.ok []) Sys.initial
    exact ⟨rest, h1, h4 (by decide) (by decide), h5 _ rfl⟩
  · obtain ⟨rest, h1, _, h3, _, _, h6⟩ := fetches_follow_player_creation Reply.notOk
      Reply.notOk Reply.rejected (Reply.ok []) Sys.initial
    exact ⟨rest, h1, h3 (by decide) rfl, h6 rfl⟩

theorem move_null_player (dx dy : Int) (moveRes : Reply MoveData) (worldRes : Reply WorldData)
    (eventsRes : Reply (List Event)) (σ : Sys) (h : σ.store.player = none) :
    move dx dy moveRes worldRes eventsRes σ = { sys := σ, threw := false } := by
  simp only [move, h]

theorem fetchWorld_player (res : Reply WorldData) (σ : Sys) :
    (fetchWorld res σ).sys.store.player = σ.store.player := by
  cases res <;> rfl

theorem fetchEvents_player (res : Reply (List Event)) (σ : Sys) :
    (fetchEvents res σ).sys.store.player = σ.store.player := by
  cases res <;> rfl

theorem runOps_null_player (ops : List Op) : ∀ σ : Sys, σ.store.player = none →
    (runOps ops σ).store.player = none := by
  induction ops with
  | nil => intro σ h; exact h
  | cons op ops ih =>
    intro σ h
    simp only [runOps, List.foldl_cons]
    apply ih
    cases op with
    | move dx dy moveRes worldRes eventsRes =>
      simp only [Op.run, move_null_player dx dy moveRes worldRes eventsRes σ h]
      exact h
    | fetchWorld worldRes =>
      simp only [Op.run, fetchWorld_player]
      exact h
    | fetchEvents eventsRes =>
      simp only [Op.run, fetchEvents_player]
      exact h

theorem App_loading {s : Store} (h : s.player = none) : App s = View.loading := by
  simp only [App, h]

theorem init_notOk_player (probeRes : Reply Unit) (worldRes : Reply WorldData)
    (eventsRes : Reply (List Event)) (σ : Sys) :
    (init probeRes Reply.notOk worldRes eventsRes σ).sys.store.player = none := by
  cases probeRes <;> cases worldRes <;> cases eventsRes <;> rfl

/-- C8: when the player-creation request of the bootstrap gets a non-success
response, the player in the store is null after `init` and `App` renders the
loading view; this stays so after any sequence of `move`, `fetchWorld` and
`fetchEvents` calls with any replies; and `move` with a null player issues no
request and changes nothing. -/
theorem creation_failure_stays_loading (probeRes : Reply Unit) (worldRes : Reply WorldData)
    (eventsRes : Reply (List Event)) :
    (init probeRes Reply.notOk worldRes eventsRes Sys.initial).sys.store.player = none ∧
    App (init probeRes Reply.notOk worldRes eventsRes Sys.initial).sys.store = View.loading ∧
    (∀ ops : List Op,
      (runOps ops (init probeRes Reply.notOk worldRes eventsRes Sys.initial).sys).store.player
        = none ∧
      App (runOps ops (init probeRes Reply.notOk worldRes eventsRes Sys.initial).sys).store
        = View.loading) ∧
    (∀ (σ : Sys) (dx dy : Int) (moveRes : Reply MoveData) (wRes : Reply WorldData)
      (eRes : Reply (List Event)), σ.store.player = none →
      move dx dy moveRes wRes eRes σ = { sys := σ, threw := false }) := by
  have h0 := init_notOk_player probeRes worldRes eventsRes Sys.initial
  refine ⟨h0, App_loading h0, fun ops => ?_, ?_⟩
  · have h1 := runOps_null_player ops _ h0
    exact ⟨h1, App_loading h1⟩
  · intro σ dx dy moveRes wRes eRes h
    exact move_null_player dx dy moveRes wRes eRes σ h

/-- Witness of C8: after a failed creation, a move whose request would succeed
is not even sent. -/
theorem creation_failure_stays_loading_witness :
    move 1 0 (Reply.ok ⟨1, 0, ["Moved."]⟩) (Reply.ok ⟨[⟨1, 0⟩]⟩) (Reply.ok [])
        (init Reply.notOk Reply.notOk Reply.notOk Reply.notOk Sys.initial).sys =
      { sys := (init Reply.notOk Reply.notOk Reply.notOk Reply.notOk Sys.initial).sys,
        threw := false } :=
  (creation_failure_stays_loading Reply.notOk Reply.notOk Reply.notOk).2.2.2
    (init Reply.notOk Reply.notOk Reply.notOk Reply.notOk Sys.initial).sys 1 0
    (Reply.ok ⟨1, 0, ["Moved."]⟩) (Reply.ok ⟨[⟨1, 0⟩]⟩) (Reply.ok []) (by decide)

/-- C9: `fetchWorld` with a non-success response leaves the whole store as it
was, and so does `fetchEvents`; on first load the world then stays the empty
list; and in `init` and in `move` a world fetch that gets a non-success
response is followed by the events fetch, whose answer, on success, becomes
the events of the store while the world keeps its prior value. -/
theorem failed_fetch_keeps_prior_value (σ : Sys) (probeRes : Reply Unit) (createRes : Reply Player)
    (eventsRes : Reply (List Event)) (dx dy : Int) (data : MoveData) (player : Player) :
    ((fetchWorld Reply.notOk σ).sys.store = σ.store ∧ (fetchWorld Reply.notOk σ).threw = false) ∧
    ((fetchEvents Reply.notOk σ).sys.store = σ.store ∧
      (fetchEvents Reply.notOk σ).threw = false) ∧
    (init probeRes createRes Reply.notOk eventsRes Sys.initial).sys.store.world = [] ∧
    (createRes ≠ Reply.rejected →
      (∃ s : Store, (init probeRes createRes Reply.notOk eventsRes σ).sys.issued =
        σ.issued ++ [{ request := Request.getPlayers, store := σ.store },
          { request := Request.postPlayers "Hero", store := σ.store },
          { request := Request.getWorld, store := s },
          { request := Request.getEvents, store := s }]) ∧
      (init probeRes createRes Reply.notOk eventsRes σ).sys.store.world = σ.store.world ∧
      (∀ evs, eventsRes = Reply.ok evs →
        (init probeRes createRes Reply.notOk eventsRes σ).sys.store.events = evs)) ∧
    (σ.store.player = some player →
      (∃ s : Store, (move dx dy (Reply.ok data) Reply.notOk eventsRes σ).sys.issued =
        σ.issued ++ [{ request := Request.postMove player.id dx dy, store := σ.store },
          { request := Request.getWorld, store := s },
          { request := Request.getEvents, store := s }]) ∧
      (move dx dy (Reply.ok data) Reply.notOk eventsRes σ).sys.store.world = σ.store.world ∧
      (∀ evs, eventsRes = Reply.ok evs →
        (move dx dy (Reply.ok data) Reply.notOk eventsRes σ).sys.store.events = evs)) := by
  refine ⟨⟨rfl, rfl⟩, ⟨rfl, rfl⟩, ?_, ?_, ?_⟩
  · cases probeRes <;> cases createRes <;> cases eventsRes <;> rfl
  · intro h
    cases probeRes <;> cases createRes <;> cases eventsRes <;>
      first
      | exact absurd rfl h
      | simp [init, refresh, fetchWorld, fetchEvents, fetch, setPlayer, setWorld, setEvents]
  · intro h
    cases eventsRes <;>
      simp [move, h, refresh, fetchWorld, fetchEvents, fetch, setPlayer, setMessages, setWorld,
        setEvents]

/-- Witness of C9: a bootstrap whose world fetch is refused and whose events
fetch succeeds, then a move in the same situation. -/
theorem failed_fetch_keeps_prior_value_witness :
    ((init Reply.notOk (Reply.ok ⟨1, "Hero", 0, 0, []⟩) Reply.notOk (Reply.ok [⟨5, "t", "d"⟩])
        ⟨⟨none, [⟨0, 0⟩], [], []⟩, []⟩).sys.store.world = [⟨0, 0⟩] ∧
      (init Reply.notOk (Reply.ok ⟨1, "Hero", 0, 0, []⟩) Reply.notOk (Reply.ok [⟨5, "t", "d"⟩])
        ⟨⟨none, [⟨0, 0⟩], [], []⟩, []⟩).sys.store.events = [⟨5, "t", "d"⟩]) ∧
    ((move 0 1 (Reply.ok ⟨0, 1, []⟩) Reply.notOk (Reply.ok [⟨5, "t", "d"⟩])
        ⟨⟨some ⟨1, "Hero", 0, 0, []⟩, [⟨0, 0⟩], [], []⟩, []⟩).sys.store.world = [⟨0, 0⟩] ∧
      (move 0 1 (Reply.ok ⟨0, 1, []⟩) Reply.notOk (Reply.ok [⟨5, "t", "d"⟩])
        ⟨⟨some ⟨1, "Hero", 0, 0, []⟩, [⟨0, 0⟩], [], []⟩, []⟩).sys.store.events
          = [⟨5, "t", "d"⟩]) :=
  ⟨⟨((failed_fetch_keeps_prior_value ⟨⟨none, [⟨0, 0⟩], [], []⟩, []⟩ Reply.notOk
        (Reply.ok ⟨1, "Hero", 0, 0, []⟩) (Reply.ok [⟨5, "t", "d"⟩]) 0 1 ⟨0, 1, []⟩
        ⟨1, "Hero", 0, 0, []⟩).2.2.2.1 (by decide)).2.1,
      ((failed_fetch_keeps_prior_value ⟨⟨none, [⟨0, 0⟩], [], []⟩, []⟩ Reply.notOk
        (Reply.ok ⟨1, "Hero", 0, 0, []⟩) (Reply.ok [⟨5, "t", "d"⟩]) 0 1 ⟨0, 1, []⟩
        ⟨1, "Hero", 0, 0, []⟩).2.2.2.1 (by decide)).2.2 _ rfl⟩,
    ⟨((failed_fetch_keeps_prior_value ⟨⟨some ⟨1, "Hero", 0, 0, []⟩, [⟨0, 0⟩], [], []⟩, []⟩
        Reply.notOk (Reply.ok ⟨1, "Hero", 0, 0, []⟩) (Reply.ok [⟨5, "t", "d"⟩]) 0 1 ⟨0, 1, []⟩
        ⟨1, "Hero", 0, 0, []⟩).2.2.2.2 rfl).2.1,
      ((failed_fetch_keeps_prior_value ⟨⟨some ⟨1, "Hero", 0, 0, []⟩, [⟨0, 0⟩], [], []⟩, []⟩
        Reply.notOk (Reply.ok ⟨1, "Hero", 0, 0, []⟩) (Reply.ok [⟨5, "t", "d"⟩]) 0 1 ⟨0, 1, []⟩
        ⟨1, "Hero", 0, 0, []⟩).2.2.2.2 rfl).2.2 _ rfl⟩⟩

end RpgEngine
